import Mathlib

/-!
# mlogger: the fan-out `multiHandler` of `mlogger/CustomLogger.go`

A shallow embedding of the fan-out slog handler and of `InitMultiLogger`.

* Side effects of the child handlers (console output, file writes) are made
  explicit: a child's `Handle` is a transition on a world `W` that also yields
  the Go `error` (`none` is `nil`).
* `slog.Handler` is an interface; it is embedded as a record of the four
  interface methods over a carrier `H` of (non-nil) handler values.
* `*multiHandler` receivers are indices into the list of allocated objects.
  The children act on the world only: they hold no reference to a fan-out
  handler's slice, and `Enabled` reads the world without changing it.
* The calls a fan-out handler makes are observed by running it on `traced`
  children, which append each `Handle` call they receive to a log.
-/

namespace mlogger

/-! ## Data model -/

/-- Levels are Go ints (`type Level int` in log/slog). -/
abbrev Level := Int

/-- The constant `slog.LevelDebug`. -/
def LevelDebug : Level := -4

/-- The constant `slog.LevelInfo`. -/
def LevelInfo : Level := 0

/-- The constant `slog.LevelWarn`. -/
def LevelWarn : Level := 4

/-- The constant `slog.LevelError`. -/
def LevelError : Level := 8

/-- The interface `slog.Handler` over a carrier `H` of handler values:
`Handle(ctx, r) error`, `Enabled(ctx, level) bool`, `WithAttrs(attrs) Handler`,
`WithGroup(name) Handler`.  `Handle` may change the world `W` and returns the
error (`none` for `nil`); `Enabled` may read the world. -/
structure Handler (H W Ctx Rec Attr Err : Type) where
  Handle : H → Ctx → Rec → W → Option Err × W
  Enabled : H → Ctx → Level → W → Bool
  WithAttrs : H → List Attr → H
  WithGroup : H → String → H

/-- The struct `multiHandler`: `handlers []slog.Handler`. -/
structure multiHandler (H : Type) where
  handlers : List H
deriving DecidableEq, Repr

variable {H W Ctx Rec Attr Err : Type}

/-- The constructor `NewMultiHandler(handlers ...slog.Handler)`: the object
`multiHandler{handlers: handlers}`. -/
def NewMultiHandler (handlers : List H) : multiHandler H :=
  { handlers := handlers }

/-- The loop of `multiHandler.Handle`:
`for _, handler := range h.handlers { if err := handler.Handle(ctx, r); err != nil { return err } }`
followed by `return nil`. -/
def multiHandler.handleLoop (ops : Handler H W Ctx Rec Attr Err) (ctx : Ctx) (r : Rec) :
    List H → W → Option Err × W
  | [], w => (none, w)
  | handler :: rest, w =>
    match ops.Handle handler ctx r w with
    | (some err, w1) => (some err, w1)
    | (none, w1) => multiHandler.handleLoop ops ctx r rest w1

/-- The method `(h *multiHandler) Handle(ctx, r)`. -/
def multiHandler.Handle (ops : Handler H W Ctx Rec Attr Err) (h : multiHandler H)
    (ctx : Ctx) (r : Rec) (w : W) : Option Err × W :=
  multiHandler.handleLoop ops ctx r h.handlers w

/-- The loop of `multiHandler.Enabled`:
`for _, handler := range h.handlers { if handler.Enabled(ctx, level) { return true } }`
followed by `return false`. -/
def multiHandler.enabledLoop (ops : Handler H W Ctx Rec Attr Err) (ctx : Ctx) (level : Level)
    (w : W) : List H → Bool
  | [] => false
  | handler :: rest =>
    if ops.Enabled handler ctx level w then true
    else multiHandler.enabledLoop ops ctx level w rest

/-- The method `(h *multiHandler) Enabled(ctx, level)`. -/
def multiHandler.Enabled (ops : Handler H W Ctx Rec Attr Err) (h : multiHandler H)
    (ctx : Ctx) (level : Level) (w : W) : Bool :=
  multiHandler.enabledLoop ops ctx level w h.handlers

/-- The method `(h *multiHandler) WithAttrs(attrs)`: a fresh slice of
`len(h.handlers)` slots, slot `i` receiving `handler.WithAttrs(attrs)` of the
`i`-th child, wrapped in a new `multiHandler`. -/
def multiHandler.WithAttrs (ops : Handler H W Ctx Rec Attr Err) (h : multiHandler H)
    (attrs : List Attr) : multiHandler H :=
  { handlers := h.handlers.map (fun handler => ops.WithAttrs handler attrs) }

/-- The method `(h *multiHandler) WithGroup(name)`: a fresh slice of
`len(h.handlers)` slots, slot `i` receiving `handler.WithGroup(name)` of the
`i`-th child, wrapped in a new `multiHandler`. -/
def multiHandler.WithGroup (ops : Handler H W Ctx Rec Attr Err) (h : multiHandler H)
    (name : String) : multiHandler H :=
  { handlers := h.handlers.map (fun handler => ops.WithGroup handler name) }

/-- The fan-out handler is itself a `slog.Handler`. -/
def multiHandler.asHandler (ops : Handler H W Ctx Rec Attr Err) :
    Handler (multiHandler H) W Ctx Rec Attr Err where
  Handle := multiHandler.Handle ops
  Enabled := multiHandler.Enabled ops
  WithAttrs := multiHandler.WithAttrs ops
  WithGroup := multiHandler.WithGroup ops

/-! ## Observing the calls made on the children -/

/-- One call `callee.Handle(ctx, record)` made on a child. -/
structure Call (H Ctx Rec : Type) where
  callee : H
  ctx : Ctx
  record : Rec
deriving DecidableEq, Repr

/-- The same children, with every `Handle` call appended to a call log that is
carried next to the world. -/
def traced (ops : Handler H W Ctx Rec Attr Err) :
    Handler H (W × List (Call H Ctx Rec)) Ctx Rec Attr Err where
  Handle := fun c ctx r s =>
    ((ops.Handle c ctx r s.1).1, ((ops.Handle c ctx r s.1).2, s.2 ++ [Call.mk c ctx r]))
  Enabled := fun c ctx level s => ops.Enabled c ctx level s.1
  WithAttrs := ops.WithAttrs
  WithGroup := ops.WithGroup

/-- The world in which child `i` would be called: the children before it have
each handled the record once, in order. -/
def worldBefore (ops : Handler H W Ctx Rec Attr Err) (ctx : Ctx) (r : Rec) (hs : List H)
    (w : W) (i : Nat) : W :=
  (hs.take i).foldl (fun v c => (ops.Handle c ctx r v).2) w

/-- The error child `i` returns for the record when its turn comes
(`none` when it succeeds or when there is no child `i`). -/
def childError (ops : Handler H W Ctx Rec Attr Err) (ctx : Ctx) (r : Rec) (hs : List H)
    (w : W) (i : Nat) : Option Err :=
  match hs[i]? with
  | none => none
  | some c => (ops.Handle c ctx r (worldBefore ops ctx r hs w i)).1

/-- Child `i` fails on the record when its turn comes. -/
def childFails (ops : Handler H W Ctx Rec Attr Err) (ctx : Ctx) (r : Rec) (hs : List H)
    (w : W) (i : Nat) : Bool :=
  (childError ops ctx r hs w i).isSome

/-! ## Pointer receivers: the allocated `multiHandler` objects -/

/-- The allocated `multiHandler` objects (a `*multiHandler` is an index into
`objs`) together with the world of the children. -/
structure State (H W : Type) where
  objs : List (multiHandler H)
  world : W

/-- Allocation `&multiHandler{...}`: the object is placed at a fresh address,
which is returned. -/
def State.new (s : State H W) (obj : multiHandler H) : State H W × Nat :=
  ({ s with objs := s.objs ++ [obj] }, s.objs.length)

/-- A method call on a `*multiHandler`. -/
inductive Op (Ctx Rec Attr : Type) where
  | Handle (ctx : Ctx) (r : Rec)
  | Enabled (ctx : Ctx) (level : Level)
  | WithAttrs (attrs : List Attr)
  | WithGroup (name : String)

/-- What a method call returns: an `error`, a `bool`, or a handler (the address
of a `multiHandler`). -/
inductive Ret (Err : Type) where
  | error (err : Option Err)
  | bool (b : Bool)
  | handler (p : Nat)
deriving DecidableEq, Repr

/-- The call `p.op(...)` on the receiver at address `p`; `none` when `p` is not
the address of an object. -/
def call (ops : Handler H W Ctx Rec Attr Err) (s : State H W) (p : Nat) :
    Op Ctx Rec Attr → Option (State H W × Ret Err)
  | Op.Handle ctx r =>
    match s.objs[p]? with
    | none => none
    | some h => some ({ s with world := (h.Handle ops ctx r s.world).2 },
        Ret.error (h.Handle ops ctx r s.world).1)
  | Op.Enabled ctx level =>
    match s.objs[p]? with
    | none => none
    | some h => some (s, Ret.bool (h.Enabled ops ctx level s.world))
  | Op.WithAttrs attrs =>
    match s.objs[p]? with
    | none => none
    | some h => some ((s.new (h.WithAttrs ops attrs)).1, Ret.handler (s.new (h.WithAttrs ops attrs)).2)
  | Op.WithGroup name =>
    match s.objs[p]? with
    | none => none
    | some h => some ((s.new (h.WithGroup ops name)).1, Ret.handler (s.new (h.WithGroup ops name)).2)

/-- A sequence of method calls, each on some receiver address. -/
def run (ops : Handler H W Ctx Rec Attr Err) :
    List (Nat × Op Ctx Rec Attr) → State H W → Option (State H W)
  | [], s => some s
  | (p, op) :: rest, s =>
    match call ops s p op with
    | none => none
    | some (s1, _) => run ops rest s1

/-! ## Error values -/

/-- Go error values as far as wrapping goes: a plain error, or an error of a
named kind that wraps a cause. -/
inductive GoError where
  | plain (msg : String)
  | wrapping (kind : String) (cause : GoError)
deriving DecidableEq, Repr

/-- The reading of "a HandlerError carrying the child's error": an error of
kind HandlerError whose cause is the child's error. -/
def isHandlerErrorOf (e cause : GoError) : Bool :=
  decide (e = GoError.wrapping "HandlerError" cause)

/-! ## Collaborators of `InitMultiLogger` -/

/-- The fields of `lumberjack.Logger` that `InitMultiLogger` sets. -/
structure lumberjackLogger where
  Filename : String
  MaxSize : Int
  MaxBackups : Int
  MaxAge : Int
  Compress : Bool
deriving DecidableEq, Repr

/-- The writers handed to the slog constructors: `os.Stdout` and the rotator. -/
inductive Writer where
  | Stdout
  | Rotator (l : lumberjackLogger)
deriving DecidableEq, Repr

/-- The field of `slog.HandlerOptions` that `InitMultiLogger` sets. -/
structure HandlerOptions where
  Level : Level
deriving DecidableEq, Repr

/-- Handler values built with log/slog: the two constructors used by
`InitMultiLogger` and the two derivations of the interface. -/
inductive slogHandler (Attr : Type) where
  | NewTextHandler (w : Writer) (opts : HandlerOptions)
  | NewJSONHandler (w : Writer) (opts : HandlerOptions)
  | WithAttrs (h : slogHandler Attr) (attrs : List Attr)
  | WithGroup (h : slogHandler Attr) (name : String)
deriving DecidableEq, Repr

/-- Modelled from the spec: the level threshold of a console or file handler
("consoleHandler(level=INFO)"), which log/slog takes from `HandlerOptions.Level`
and keeps under `WithAttrs` and `WithGroup`. -/
def slogHandler.minLevel : slogHandler Attr → Level
  | slogHandler.NewTextHandler _ opts => opts.Level
  | slogHandler.NewJSONHandler _ opts => opts.Level
  | slogHandler.WithAttrs h _ => slogHandler.minLevel h
  | slogHandler.WithGroup h _ => slogHandler.minLevel h

/-- Modelled from the spec: the console and file handlers of log/slog as
`slog.Handler`s.  `Enabled` holds exactly from the handler's threshold on; what
`Handle` writes (and whether the write fails) is left to the parameter `write`. -/
def slogHandler.ops (write : slogHandler Attr → Ctx → Rec → W → Option Err × W) :
    Handler (slogHandler Attr) W Ctx Rec Attr Err where
  Handle := write
  Enabled := fun h _ level _ => decide (slogHandler.minLevel h ≤ level)
  WithAttrs := slogHandler.WithAttrs
  WithGroup := slogHandler.WithGroup

/-- The logger `slog.New(h)`: a logger backed by the handler `h`. -/
structure Logger (H : Type) where
  handler : H
deriving DecidableEq, Repr

/-- Modelled from the spec: the logging facade of log/slog, which asks the
handler `isEnabled` for the record's level and drops the record "before
reaching `handle`" when the answer is false; the handler's error is discarded. -/
def Logger.log (ops : Handler H W Ctx Rec Attr Err) (l : Logger H) (ctx : Ctx)
    (level : Level) (r : Rec) (w : W) : W :=
  if ops.Enabled l.handler ctx level w then (ops.Handle l.handler ctx r w).2 else w

/-- The rotator configured in `InitMultiLogger`. -/
def InitMultiLogger.rotator : lumberjackLogger :=
  { Filename := "app.log", MaxSize := 1, MaxBackups := 5, MaxAge := 30, Compress := true }

/-- The function `InitMultiLogger`, as the value it installs with
`slog.SetDefault`: the logger over `NewMultiHandler(consoleHandler, fileHandler)`. -/
def InitMultiLogger : Logger (multiHandler (slogHandler Attr)) :=
  let rotator := InitMultiLogger.rotator
  let fileHandler : slogHandler Attr :=
    slogHandler.NewJSONHandler (Writer.Rotator rotator) { Level := LevelInfo }
  let consoleHandler : slogHandler Attr :=
    slogHandler.NewTextHandler Writer.Stdout { Level := LevelInfo }
  let multi := NewMultiHandler [consoleHandler, fileHandler]
  let logger : Logger (multiHandler (slogHandler Attr)) := { handler := multi }
  logger

/-! ## Worked children for the examples

A console child that always succeeds and a file child whose write fails while
the disk is full; both record what they wrote, with the attributes and groups
they were derived with. -/

/-- Where a worked child writes. -/
inductive Dest where
  | console
  | file
deriving DecidableEq, Repr

/-- A worked child handler. -/
structure Probe where
  dest : Dest
  minLevel : Level
  attrs : List (String × String)
  groups : List String
deriving DecidableEq, Repr

/-- A line written by a worked child: the message with the handler's groups and
attributes. -/
structure Line where
  msg : String
  groups : List String
  attrs : List (String × String)
deriving DecidableEq, Repr

/-- The world of the worked children: both outputs, and the number of file
writes that will still fail because the disk is full. -/
structure Outputs where
  console : List Line
  file : List Line
  diskFull : Nat
deriving DecidableEq, Repr

/-- The worked children as `slog.Handler`s (records are their messages). -/
def Probe.ops : Handler Probe Outputs Unit String (String × String) GoError where
  Handle := fun p _ r w =>
    match p.dest with
    | Dest.console => (none, { w with console := w.console ++ [Line.mk r p.groups p.attrs] })
    | Dest.file =>
      if 0 < w.diskFull then
        (some (GoError.plain "disk full"), { w with diskFull := w.diskFull - 1 })
      else (none, { w with file := w.file ++ [Line.mk r p.groups p.attrs] })
  Enabled := fun p _ level _ => decide (p.minLevel ≤ level)
  WithAttrs := fun p attrs => { p with attrs := p.attrs ++ attrs }
  WithGroup := fun p name => { p with groups := p.groups ++ [name] }

/-- The worked console child at INFO. -/
def Probe.consoleInfo : Probe :=
  { dest := Dest.console, minLevel := LevelInfo, attrs := [], groups := [] }

/-- The worked file child at INFO. -/
def Probe.fileInfo : Probe :=
  { dest := Dest.file, minLevel := LevelInfo, attrs := [], groups := [] }

/-- Empty outputs with `n` failing file writes ahead. -/
def Outputs.start (n : Nat) : Outputs :=
  { console := [], file := [], diskFull := n }

/-- The worked file child at DEBUG. -/
def Probe.fileDebug : Probe :=
  { dest := Dest.file, minLevel := LevelDebug, attrs := [], groups := [] }

/-! ## Nested fan-out handlers and thresholds -/

/-- Dynamic dispatch over a `[]slog.Handler` that holds handler values of two
types: each method call goes to the methods of the value's own type. -/
def Handler.either {A B : Type} (a : Handler A W Ctx Rec Attr Err)
    (b : Handler B W Ctx Rec Attr Err) : Handler (A ⊕ B) W Ctx Rec Attr Err where
  Handle := fun c ctx r w =>
    match c with
    | Sum.inl x => a.Handle x ctx r w
    | Sum.inr y => b.Handle y ctx r w
  Enabled := fun c ctx level w =>
    match c with
    | Sum.inl x => a.Enabled x ctx level w
    | Sum.inr y => b.Enabled y ctx level w
  WithAttrs := fun c attrs =>
    match c with
    | Sum.inl x => Sum.inl (a.WithAttrs x attrs)
    | Sum.inr y => Sum.inr (b.WithAttrs y attrs)
  WithGroup := fun c name =>
    match c with
    | Sum.inl x => Sum.inl (a.WithGroup x name)
    | Sum.inr y => Sum.inr (b.WithGroup y name)

/-- The children of a fan-out handler whose children are fan-out handlers or
plain handlers: a nested fan-out handler next to plain ones. -/
abbrev Nested (H : Type) := multiHandler H ⊕ H

/-- The methods of the children of a fan-out handler that may itself hold
fan-out handlers over `ops`. -/
def nestedOps (ops : Handler H W Ctx Rec Attr Err) : Handler (Nested H) W Ctx Rec Attr Err :=
  Handler.either (multiHandler.asHandler ops) ops

/-- The plain handlers below a list of nested children, in order: a fan-out
child contributes its own children in its place. -/
def flatten : List (Nested H) → List H
  | [] => []
  | Sum.inl m :: rest => m.handlers ++ flatten rest
  | Sum.inr c :: rest => c :: flatten rest

/-- The lowest of the thresholds `thr` of the children `c, rest`. -/
def lowestThreshold (thr : H → Level) (c : H) (rest : List H) : Level :=
  (rest.map thr).foldl min (thr c)

/-! ## Theorems -/

section lemmas

variable (ops : Handler H W Ctx Rec Attr Err) (ctx : Ctx) (r : Rec)

theorem handleLoop_nil (w : W) :
    multiHandler.handleLoop ops ctx r [] w = (none, w) := rfl

theorem handleLoop_cons_err (c : H) (rest : List H) (w : W) (e : Err)
    (he : (ops.Handle c ctx r w).1 = some e) :
    multiHandler.handleLoop ops ctx r (c :: rest) w = (some e, (ops.Handle c ctx r w).2) := by
  rcases hc : ops.Handle c ctx r w with ⟨o, w1⟩
  rw [hc] at he
  simp only at he
  subst he
  simp [multiHandler.handleLoop, hc]

theorem handleLoop_cons_ok (c : H) (rest : List H) (w : W)
    (he : (ops.Handle c ctx r w).1 = none) :
    multiHandler.handleLoop ops ctx r (c :: rest) w =
      multiHandler.handleLoop ops ctx r rest (ops.Handle c ctx r w).2 := by
  rcases hc : ops.Handle c ctx r w with ⟨o, w1⟩
  rw [hc] at he
  simp only at he
  subst he
  simp [multiHandler.handleLoop, hc]

theorem worldBefore_zero (hs : List H) (w : W) : worldBefore ops ctx r hs w 0 = w := by
  simp [worldBefore]

theorem worldBefore_cons_succ (c : H) (hs : List H) (w : W) (i : Nat) :
    worldBefore ops ctx r (c :: hs) w (i + 1) =
      worldBefore ops ctx r hs (ops.Handle c ctx r w).2 i := by
  simp [worldBefore]

theorem childError_cons_zero (c : H) (hs : List H) (w : W) :
    childError ops ctx r (c :: hs) w 0 = (ops.Handle c ctx r w).1 := by
  simp [childError, worldBefore]

theorem childError_cons_succ (c : H) (hs : List H) (w : W) (i : Nat) :
    childError ops ctx r (c :: hs) w (i + 1) =
      childError ops ctx r hs (ops.Handle c ctx r w).2 i := by
  simp [childError, worldBefore]

theorem childFails_cons_succ (c : H) (hs : List H) (w : W) (i : Nat) :
    childFails ops ctx r (c :: hs) w (i + 1) =
      childFails ops ctx r hs (ops.Handle c ctx r w).2 i := by
  simp [childFails, childError_cons_succ]

theorem childFails_false_iff (hs : List H) (w : W) (i : Nat) :
    childFails ops ctx r hs w i = false ↔ childError ops ctx r hs w i = none := by
  simp [childFails]

/-- The traced run up to and including the first failing child `k`. -/
theorem handleLoop_traced_fail : ∀ (hs : List H) (k : Nat) (w : W) (log : List (Call H Ctx Rec)),
    childFails ops ctx r hs w k = true →
    (∀ i, i < k → childFails ops ctx r hs w i = false) →
    multiHandler.handleLoop (traced ops) ctx r hs (w, log) =
      (childError ops ctx r hs w k,
        (worldBefore ops ctx r hs w (k + 1),
          log ++ (hs.take (k + 1)).map (fun c => Call.mk c ctx r)))
  | [], k, w, log, hk, _ => by simp [childFails, childError] at hk
  | c :: rest, 0, w, log, hk, _ => by
    simp only [childFails, childError_cons_zero, Option.isSome_iff_exists] at hk
    obtain ⟨e, he⟩ := hk
    have ht : ((traced ops).Handle c ctx r (w, log)).1 = some e := by simpa [traced] using he
    rw [handleLoop_cons_err (traced ops) ctx r c rest (w, log) e ht]
    simp [childError_cons_zero, he, worldBefore, traced]
  | c :: rest, k + 1, w, log, hk, hlt => by
    have h0 := hlt 0 (Nat.succ_pos k)
    rw [childFails_false_iff, childError_cons_zero] at h0
    have ht : ((traced ops).Handle c ctx r (w, log)).1 = none := by simpa [traced] using h0
    rw [handleLoop_cons_ok (traced ops) ctx r c rest (w, log) ht]
    rw [childFails_cons_succ] at hk
    have hlt2 : ∀ i, i < k → childFails ops ctx r rest (ops.Handle c ctx r w).2 i = false := by
      intro i hi
      have := hlt (i + 1) (Nat.succ_lt_succ hi)
      rwa [childFails_cons_succ] at this
    have ih := handleLoop_traced_fail rest k (ops.Handle c ctx r w).2
      (log ++ [Call.mk c ctx r]) hk hlt2
    simp only [traced] at ih ⊢
    rw [ih, childError_cons_succ, worldBefore_cons_succ]
    simp

/-- The traced run when no child fails. -/
theorem handleLoop_traced_ok : ∀ (hs : List H) (w : W) (log : List (Call H Ctx Rec)),
    (∀ i, i < hs.length → childFails ops ctx r hs w i = false) →
    multiHandler.handleLoop (traced ops) ctx r hs (w, log) =
      (none,
        (worldBefore ops ctx r hs w hs.length,
          log ++ hs.map (fun c => Call.mk c ctx r)))
  | [], w, log, _ => by simp [multiHandler.handleLoop, worldBefore]
  | c :: rest, w, log, hlt => by
    have h0 := hlt 0 (by simp)
    rw [childFails_false_iff, childError_cons_zero] at h0
    have ht : ((traced ops).Handle c ctx r (w, log)).1 = none := by simpa [traced] using h0
    rw [handleLoop_cons_ok (traced ops) ctx r c rest (w, log) ht]
    have hlt2 : ∀ i, i < rest.length →
        childFails ops ctx r rest (ops.Handle c ctx r w).2 i = false := by
      intro i hi
      have := hlt (i + 1) (by simpa using hi)
      rwa [childFails_cons_succ] at this
    have ih := handleLoop_traced_ok rest (ops.Handle c ctx r w).2
      (log ++ [Call.mk c ctx r]) hlt2
    simp only [traced] at ih ⊢
    rw [ih, List.length_cons, worldBefore_cons_succ]
    simp

/-- Tracing does not change the run: the error and the world are those of the
untraced children. -/
theorem handleLoop_traced_erase : ∀ (hs : List H) (w : W) (log : List (Call H Ctx Rec)),
    (multiHandler.handleLoop (traced ops) ctx r hs (w, log)).1 =
        (multiHandler.handleLoop ops ctx r hs w).1 ∧
      (multiHandler.handleLoop (traced ops) ctx r hs (w, log)).2.1 =
        (multiHandler.handleLoop ops ctx r hs w).2
  | [], w, log => by simp [multiHandler.handleLoop]
  | c :: rest, w, log => by
    cases he : (ops.Handle c ctx r w).1 with
    | none =>
      have ht : ((traced ops).Handle c ctx r (w, log)).1 = none := by simpa [traced] using he
      rw [handleLoop_cons_ok (traced ops) ctx r c rest (w, log) ht,
        handleLoop_cons_ok ops ctx r c rest w he]
      exact handleLoop_traced_erase rest _ _
    | some e =>
      have ht : ((traced ops).Handle c ctx r (w, log)).1 = some e := by simpa [traced] using he
      rw [handleLoop_cons_err (traced ops) ctx r c rest (w, log) e ht,
        handleLoop_cons_err ops ctx r c rest w e he]
      simp [traced]

/-- The untraced run succeeds exactly when every child succeeds in its turn. -/
theorem handleLoop_eq_none_iff : ∀ (hs : List H) (w : W),
    (multiHandler.handleLoop ops ctx r hs w).1 = none ↔
      ∀ i, i < hs.length → childError ops ctx r hs w i = none
  | [], w => by simp [multiHandler.handleLoop]
  | c :: rest, w => by
    cases he : (ops.Handle c ctx r w).1 with
    | none =>
      rw [handleLoop_cons_ok ops ctx r c rest w he, handleLoop_eq_none_iff rest]
      constructor
      · intro h i hi
        cases i with
        | zero => rw [childError_cons_zero]; exact he
        | succ j =>
          rw [childError_cons_succ]
          exact h j (by simpa using hi)
      · intro h i hi
        have := h (i + 1) (by simpa using hi)
        rwa [childError_cons_succ] at this
    | some e =>
      rw [handleLoop_cons_err ops ctx r c rest w e he]
      constructor
      · intro h
        simp at h
      · intro h
        have := h 0 (by simp)
        rw [childError_cons_zero, he] at this
        simp at this

/-- The untraced run up to the first failing child `k`. -/
theorem handleLoop_first_failure (hs : List H) (k : Nat) (w : W)
    (hk : childFails ops ctx r hs w k = true)
    (hlt : ∀ i, i < k → childFails ops ctx r hs w i = false) :
    multiHandler.handleLoop ops ctx r hs w =
      (childError ops ctx r hs w k, worldBefore ops ctx r hs w (k + 1)) := by
  have ht := handleLoop_traced_fail ops ctx r hs k w [] hk hlt
  have he := handleLoop_traced_erase ops ctx r hs w []
  rw [ht] at he
  exact Prod.ext he.1.symm he.2.symm

/-- A failing child has an index below the number of children. -/
theorem childFails_lt (hs : List H) (w : W) (k : Nat)
    (hk : childFails ops ctx r hs w k = true) : k < hs.length := by
  by_contra hge
  have hnone : hs[k]? = none := List.getElem?_eq_none (Nat.le_of_not_lt hge)
  simp [childFails, childError, hnone] at hk

/-- A method call only ever adds objects: the objects allocated before it are
a prefix of those after it. -/
theorem call_objs (s s2 : State H W) (p : Nat) (op : Op Ctx Rec Attr) (ret : Ret Err)
    (hc : call ops s p op = some (s2, ret)) : ∃ extra, s2.objs = s.objs ++ extra := by
  cases op with
  | Handle ctx r =>
    cases hp : s.objs[p]? with
    | none => simp [call, hp] at hc
    | some h =>
      simp only [call, hp, Option.some.injEq, Prod.mk.injEq] at hc
      exact ⟨[], by rw [← hc.1]; simp⟩
  | Enabled ctx level =>
    cases hp : s.objs[p]? with
    | none => simp [call, hp] at hc
    | some h =>
      simp only [call, hp, Option.some.injEq, Prod.mk.injEq] at hc
      exact ⟨[], by rw [← hc.1]; simp⟩
  | WithAttrs attrs =>
    cases hp : s.objs[p]? with
    | none => simp [call, hp] at hc
    | some h =>
      simp only [call, hp, Option.some.injEq, Prod.mk.injEq] at hc
      exact ⟨[h.WithAttrs ops attrs], by rw [← hc.1]; rfl⟩
  | WithGroup name =>
    cases hp : s.objs[p]? with
    | none => simp [call, hp] at hc
    | some h =>
      simp only [call, hp, Option.some.injEq, Prod.mk.injEq] at hc
      exact ⟨[h.WithGroup ops name], by rw [← hc.1]; rfl⟩

/-- An object that exists before a method call is the same object after it. -/
theorem call_keeps (s s2 : State H W) (p : Nat) (op : Op Ctx Rec Attr) (ret : Ret Err)
    (hc : call ops s p op = some (s2, ret)) (q : Nat) (h : multiHandler H)
    (hq : s.objs[q]? = some h) : s2.objs[q]? = some h := by
  obtain ⟨extra, hx⟩ := call_objs ops s s2 p op ret hc
  have hlt : q < s.objs.length := (List.getElem?_eq_some_iff.mp hq).1
  rw [hx, List.getElem?_append_left hlt]
  exact hq

/-- An object that exists before a sequence of calls is the same object after it. -/
theorem run_keeps : ∀ (calls : List (Nat × Op Ctx Rec Attr)) (s s2 : State H W),
    run ops calls s = some s2 → ∀ (q : Nat) (h : multiHandler H),
    s.objs[q]? = some h → s2.objs[q]? = some h
  | [], s, s2, hr, q, h, hq => by
    simp only [run, Option.some.injEq] at hr
    rw [← hr]
    exact hq
  | (p, op) :: rest, s, s2, hr, q, h, hq => by
    cases hc : call ops s p op with
    | none => simp [run, hc] at hr
    | some out =>
      obtain ⟨s1, ret⟩ := out
      simp only [run, hc] at hr
      exact run_keeps rest s1 s2 hr q h (call_keeps ops s s1 p op ret hc q h hq)

/-- The address returned by an allocation holds the new object and held
nothing before. -/
theorem new_fresh (s : State H W) (obj : multiHandler H) :
    (s.new obj).1.objs[(s.new obj).2]? = some obj ∧ s.objs[(s.new obj).2]? = none ∧
      (s.new obj).1.world = s.world := by
  simp [State.new]

/-- No error value is an error that wraps itself. -/
theorem GoError.ne_wrapping_self (kind : String) (e : GoError) :
    e ≠ GoError.wrapping kind e := by
  intro h
  have hs := congrArg sizeOf h
  simp at hs

/-- The loop of `Handle` uses only the children's `Handle` method. -/
theorem handleLoop_congr (ops2 : Handler H W Ctx Rec Attr Err)
    (hH : ops2.Handle = ops.Handle) : ∀ (hs : List H) (w : W),
    multiHandler.handleLoop ops2 ctx r hs w = multiHandler.handleLoop ops ctx r hs w
  | [], w => rfl
  | c :: rest, w => by
    simp only [multiHandler.handleLoop, hH]
    rcases ops.Handle c ctx r w with ⟨o, w1⟩
    cases o with
    | none => exact handleLoop_congr ops2 hH rest w1
    | some e => rfl

/-- The loop over `xs ++ ys` when the loop over `xs` succeeds. -/
theorem handleLoop_append_ok : ∀ (xs ys : List H) (w : W),
    (multiHandler.handleLoop ops ctx r xs w).1 = none →
    multiHandler.handleLoop ops ctx r (xs ++ ys) w =
      multiHandler.handleLoop ops ctx r ys (multiHandler.handleLoop ops ctx r xs w).2
  | [], ys, w, _ => rfl
  | c :: rest, ys, w, hx => by
    cases he : (ops.Handle c ctx r w).1 with
    | none =>
      rw [handleLoop_cons_ok ops ctx r c rest w he] at hx ⊢
      rw [List.cons_append, handleLoop_cons_ok ops ctx r c (rest ++ ys) w he]
      exact handleLoop_append_ok rest ys _ hx
    | some e =>
      rw [handleLoop_cons_err ops ctx r c rest w e he] at hx
      simp at hx

/-- The loop over `xs ++ ys` when the loop over `xs` fails. -/
theorem handleLoop_append_err : ∀ (xs ys : List H) (w : W) (e : Err),
    (multiHandler.handleLoop ops ctx r xs w).1 = some e →
    multiHandler.handleLoop ops ctx r (xs ++ ys) w = multiHandler.handleLoop ops ctx r xs w
  | [], ys, w, e, hx => by simp [multiHandler.handleLoop] at hx
  | c :: rest, ys, w, e, hx => by
    cases he : (ops.Handle c ctx r w).1 with
    | none =>
      rw [handleLoop_cons_ok ops ctx r c rest w he] at hx ⊢
      rw [List.cons_append, handleLoop_cons_ok ops ctx r c (rest ++ ys) w he]
      exact handleLoop_append_err rest ys _ e hx
    | some e1 =>
      rw [List.cons_append, handleLoop_cons_err ops ctx r c rest w e1 he,
        handleLoop_cons_err ops ctx r c (rest ++ ys) w e1 he]

/-- A fan-out handler over nested children runs as the fan-out handler over
the plain handlers below them. -/
theorem handleLoop_flatten : ∀ (hs : List (Nested H)) (w : W),
    multiHandler.handleLoop (nestedOps ops) ctx r hs w =
      multiHandler.handleLoop ops ctx r (flatten hs) w
  | [], w => rfl
  | Sum.inl m :: rest, w => by
    have hcall : (nestedOps ops).Handle (Sum.inl m) ctx r w =
        multiHandler.handleLoop ops ctx r m.handlers w := rfl
    cases he : (multiHandler.handleLoop ops ctx r m.handlers w).1 with
    | none =>
      rw [handleLoop_cons_ok (nestedOps ops) ctx r (Sum.inl m) rest w (by rw [hcall]; exact he),
        hcall, handleLoop_flatten rest]
      show _ = multiHandler.handleLoop ops ctx r (m.handlers ++ flatten rest) w
      rw [handleLoop_append_ok ops ctx r m.handlers (flatten rest) w he]
    | some e =>
      rw [handleLoop_cons_err (nestedOps ops) ctx r (Sum.inl m) rest w e
        (by rw [hcall]; exact he), hcall]
      show _ = multiHandler.handleLoop ops ctx r (m.handlers ++ flatten rest) w
      rw [handleLoop_append_err ops ctx r m.handlers (flatten rest) w e he]
      exact Prod.ext he.symm rfl
  | Sum.inr c :: rest, w => by
    have hcall : (nestedOps ops).Handle (Sum.inr c) ctx r w = ops.Handle c ctx r w := rfl
    cases he : (ops.Handle c ctx r w).1 with
    | none =>
      rw [handleLoop_cons_ok (nestedOps ops) ctx r (Sum.inr c) rest w (by rw [hcall]; exact he),
        hcall, handleLoop_flatten rest]
      show _ = multiHandler.handleLoop ops ctx r (c :: flatten rest) w
      rw [handleLoop_cons_ok ops ctx r c (flatten rest) w he]
    | some e =>
      rw [handleLoop_cons_err (nestedOps ops) ctx r (Sum.inr c) rest w e
        (by rw [hcall]; exact he), hcall]
      show _ = multiHandler.handleLoop ops ctx r (c :: flatten rest) w
      rw [handleLoop_cons_err ops ctx r c (flatten rest) w e he]

/-- The loop of `Enabled` is the OR over the children. -/
theorem enabledLoop_eq_any (level : Level) (w : W) : ∀ (hs : List H),
    multiHandler.enabledLoop ops ctx level w hs = hs.any (fun c => ops.Enabled c ctx level w)
  | [] => rfl
  | c :: rest => by
    simp only [multiHandler.enabledLoop, List.any_cons, enabledLoop_eq_any level w rest]
    cases ops.Enabled c ctx level w <;> simp

/-- The loop of `Enabled` over nested children is the loop over the plain
handlers below them. -/
theorem enabledLoop_flatten (level : Level) (w : W) : ∀ (hs : List (Nested H)),
    multiHandler.enabledLoop (nestedOps ops) ctx level w hs =
      multiHandler.enabledLoop ops ctx level w (flatten hs)
  | [] => rfl
  | Sum.inl m :: rest => by
    have hcall : (nestedOps ops).Enabled (Sum.inl m) ctx level w =
        multiHandler.enabledLoop ops ctx level w m.handlers := rfl
    have ih := enabledLoop_flatten level w rest
    rw [enabledLoop_eq_any] at ih ⊢
    rw [List.any_cons, hcall, ih]
    show _ = multiHandler.enabledLoop ops ctx level w (m.handlers ++ flatten rest)
    rw [enabledLoop_eq_any ops ctx level w (m.handlers ++ flatten rest), List.any_append,
      enabledLoop_eq_any ops ctx level w m.handlers,
      enabledLoop_eq_any ops ctx level w (flatten rest)]
  | Sum.inr c :: rest => by
    have hcall : (nestedOps ops).Enabled (Sum.inr c) ctx level w = ops.Enabled c ctx level w :=
      rfl
    have ih := enabledLoop_flatten level w rest
    rw [enabledLoop_eq_any] at ih ⊢
    rw [List.any_cons, hcall, ih]
    show _ = multiHandler.enabledLoop ops ctx level w (c :: flatten rest)
    rw [enabledLoop_eq_any ops ctx level w (c :: flatten rest), List.any_cons,
      enabledLoop_eq_any ops ctx level w (flatten rest)]

/-- Deriving nested children with attributes derives the plain handlers below
them. -/
theorem flatten_map_WithAttrs (attrs : List Attr) : ∀ (hs : List (Nested H)),
    flatten (hs.map (fun c => (nestedOps ops).WithAttrs c attrs)) =
      (flatten hs).map (fun c => ops.WithAttrs c attrs)
  | [] => rfl
  | Sum.inl m :: rest => by
    show (m.handlers.map (fun c => ops.WithAttrs c attrs)) ++
      flatten (rest.map (fun c => (nestedOps ops).WithAttrs c attrs)) = _
    rw [flatten_map_WithAttrs attrs rest]
    simp [flatten]
  | Sum.inr c :: rest => by
    show ops.WithAttrs c attrs ::
      flatten (rest.map (fun c => (nestedOps ops).WithAttrs c attrs)) = _
    rw [flatten_map_WithAttrs attrs rest]
    simp [flatten]

/-- Deriving nested children with a group derives the plain handlers below
them. -/
theorem flatten_map_WithGroup (name : String) : ∀ (hs : List (Nested H)),
    flatten (hs.map (fun c => (nestedOps ops).WithGroup c name)) =
      (flatten hs).map (fun c => ops.WithGroup c name)
  | [] => rfl
  | Sum.inl m :: rest => by
    show (m.handlers.map (fun c => ops.WithGroup c name)) ++
      flatten (rest.map (fun c => (nestedOps ops).WithGroup c name)) = _
    rw [flatten_map_WithGroup name rest]
    simp [flatten]
  | Sum.inr c :: rest => by
    show ops.WithGroup c name ::
      flatten (rest.map (fun c => (nestedOps ops).WithGroup c name)) = _
    rw [flatten_map_WithGroup name rest]
    simp [flatten]

/-- Plain children wrapped as nested children flatten to themselves. -/
theorem flatten_map_inr : ∀ (ys : List H), flatten (ys.map Sum.inr) = ys
  | [] => rfl
  | c :: rest => by
    show c :: flatten (rest.map Sum.inr) = c :: rest
    rw [flatten_map_inr rest]

/-- A running minimum is at most its start value. -/
theorem foldl_min_le_init : ∀ (l : List Level) (a : Level), l.foldl min a ≤ a
  | [], a => le_refl a
  | x :: rest, a => by
    rw [List.foldl_cons]
    exact le_trans (foldl_min_le_init rest (min a x)) (min_le_left a x)

/-- A running minimum is at most every member of the list. -/
theorem foldl_min_le_mem : ∀ (l : List Level) (a x : Level), x ∈ l → l.foldl min a ≤ x
  | [], a, x, hx => by simp at hx
  | y :: rest, a, x, hx => by
    rw [List.foldl_cons]
    rcases List.mem_cons.mp hx with hxy | hxr
    · subst hxy
      exact le_trans (foldl_min_le_init rest (min a x)) (min_le_right a x)
    · exact foldl_min_le_mem rest (min a y) x hxr

/-- A running minimum is its start value or a member of the list. -/
theorem foldl_min_mem : ∀ (l : List Level) (a : Level), l.foldl min a = a ∨ l.foldl min a ∈ l
  | [], a => Or.inl rfl
  | y :: rest, a => by
    rw [List.foldl_cons]
    rcases foldl_min_mem rest (min a y) with h | h
    · rcases min_choice a y with hm | hm
      · left
        rw [h, hm]
      · right
        rw [h, hm]
        exact List.mem_cons_self y rest
    · right
      exact List.mem_cons_of_mem y h

/-- The lowest threshold is below every child's threshold and is the
threshold of one of the children. -/
theorem lowestThreshold_spec (thr : H → Level) (c : H) (rest : List H) :
    (∀ x, x ∈ c :: rest → lowestThreshold thr c rest ≤ thr x) ∧
      ∃ x, x ∈ c :: rest ∧ thr x = lowestThreshold thr c rest := by
  constructor
  · intro x hx
    rcases List.mem_cons.mp hx with hxc | hxr
    · subst hxc
      exact foldl_min_le_init _ _
    · exact foldl_min_le_mem _ _ _ (List.mem_map_of_mem thr hxr)
  · rcases foldl_min_mem (rest.map thr) (thr c) with h | h
    · exact ⟨c, List.mem_cons_self c rest, h.symm⟩
    · obtain ⟨x, hx, hxe⟩ := List.mem_map.mp h
      exact ⟨x, List.mem_cons_of_mem c hx, hxe⟩

end lemmas

/-! ## The claims -/

/-- C1: `multiHandler.Handle(ctx, R)` calls `hi.Handle(ctx, R)` on the children
in construction order, each once and with the same `ctx` and `R`, and stops at
the first child that returns an error.  The calls added to the log are those on
`h1..hk` (and no others) when `k` is the lowest failing index, and those on all
of `h1..hn` when no child fails; logging the calls changes neither the error
nor the world of the run.  This holds for every child list, in particular for
every non-empty one. -/
theorem Handle_calls_children_in_order (ops : Handler H W Ctx Rec Attr Err) (hs : List H)
    (ctx : Ctx) (r : Rec) (w : W) (log : List (Call H Ctx Rec)) :
    (((NewMultiHandler hs).Handle (traced ops) ctx r (w, log)).1 =
        ((NewMultiHandler hs).Handle ops ctx r w).1 ∧
      ((NewMultiHandler hs).Handle (traced ops) ctx r (w, log)).2.1 =
        ((NewMultiHandler hs).Handle ops ctx r w).2) ∧
    (∀ k, childFails ops ctx r hs w k = true →
      (∀ i, i < k → childFails ops ctx r hs w i = false) →
      ((NewMultiHandler hs).Handle (traced ops) ctx r (w, log)).2.2 =
        log ++ (hs.take (k + 1)).map (fun c => Call.mk c ctx r)) ∧
    ((∀ i, i < hs.length → childFails ops ctx r hs w i = false) →
      ((NewMultiHandler hs).Handle (traced ops) ctx r (w, log)).2.2 =
        log ++ hs.map (fun c => Call.mk c ctx r)) := by
  refine ⟨handleLoop_traced_erase ops ctx r hs w log, ?_, ?_⟩
  · intro k hk hlt
    show (multiHandler.handleLoop (traced ops) ctx r hs (w, log)).2.2 = _
    rw [handleLoop_traced_fail ops ctx r hs k w log hk hlt]
  · intro hok
    show (multiHandler.handleLoop (traced ops) ctx r hs (w, log)).2.2 = _
    rw [handleLoop_traced_ok ops ctx r hs w log hok]

/-- C1, worked: of the children console, file, console with a full disk, the
console child and then the file child are called, the third child is not. -/
theorem Handle_calls_children_in_order_witness :
    ((NewMultiHandler [Probe.consoleInfo, Probe.fileInfo, Probe.consoleInfo]).Handle
        (traced Probe.ops) () "hello" (Outputs.start 1, [])).2.2 =
      [Call.mk Probe.consoleInfo () "hello", Call.mk Probe.fileInfo () "hello"] ∧
    ((NewMultiHandler [Probe.consoleInfo, Probe.fileInfo, Probe.consoleInfo]).Handle
        (traced Probe.ops) () "hello" (Outputs.start 0, [])).2.2 =
      [Call.mk Probe.consoleInfo () "hello", Call.mk Probe.fileInfo () "hello",
        Call.mk Probe.consoleInfo () "hello"] :=
  ⟨(Handle_calls_children_in_order Probe.ops
      [Probe.consoleInfo, Probe.fileInfo, Probe.consoleInfo] () "hello"
      (Outputs.start 1) []).2.1 1 (by decide) (by decide),
   (Handle_calls_children_in_order Probe.ops
      [Probe.consoleInfo, Probe.fileInfo, Probe.consoleInfo] () "hello"
      (Outputs.start 0) []).2.2 (by decide)⟩

/-- C2: `multiHandler.Handle` returns `nil` if and only if every child's
`Handle` succeeds on the record; otherwise it returns the error of the first
(lowest-index) failing child.  For children console, file where console
succeeds and file then fails with `e`, it returns `e`, in the world in which
console has already handled the record. -/
theorem Handle_returns_first_error (ops : Handler H W Ctx Rec Attr Err) (hs : List H)
    (ctx : Ctx) (r : Rec) (w : W) :
    (((NewMultiHandler hs).Handle ops ctx r w).1 = none ↔
      ∀ i, i < hs.length → childError ops ctx r hs w i = none) ∧
    (∀ k e, childError ops ctx r hs w k = some e →
      (∀ i, i < k → childError ops ctx r hs w i = none) →
      ((NewMultiHandler hs).Handle ops ctx r w).1 = some e) ∧
    (∀ (console file : H) (e : Err) (w1 w2 : W),
      ops.Handle console ctx r w = (none, w1) →
      ops.Handle file ctx r w1 = (some e, w2) →
      (NewMultiHandler [console, file]).Handle ops ctx r w = (some e, w2)) := by
  refine ⟨handleLoop_eq_none_iff ops ctx r hs w, ?_, ?_⟩
  · intro k e hk hlt
    show (multiHandler.handleLoop ops ctx r hs w).1 = some e
    have hk2 : childFails ops ctx r hs w k = true := by simp [childFails, hk]
    have hlt2 : ∀ i, i < k → childFails ops ctx r hs w i = false := by
      intro i hi
      rw [childFails_false_iff]
      exact hlt i hi
    rw [handleLoop_first_failure ops ctx r hs k w hk2 hlt2]
    exact hk
  · intro console file e w1 w2 hc hf
    show multiHandler.handleLoop ops ctx r [console, file] w = (some e, w2)
    simp [multiHandler.handleLoop, hc, hf]

/-- C2, worked: console succeeds, the file write fails on a full disk; the
file child's error is returned and the console line has been written. -/
theorem Handle_returns_first_error_witness :
    (NewMultiHandler [Probe.consoleInfo, Probe.fileInfo]).Handle Probe.ops () "hello"
        (Outputs.start 1) =
      (some (GoError.plain "disk full"),
        { console := [Line.mk "hello" [] []], file := [], diskFull := 0 }) ∧
    ((NewMultiHandler [Probe.consoleInfo, Probe.fileInfo]).Handle Probe.ops () "hello"
        (Outputs.start 1)).1 = some (GoError.plain "disk full") :=
  ⟨(Handle_returns_first_error Probe.ops [] () "hello" (Outputs.start 1)).2.2
      Probe.consoleInfo Probe.fileInfo (GoError.plain "disk full")
      { console := [Line.mk "hello" [] []], file := [], diskFull := 1 }
      { console := [Line.mk "hello" [] []], file := [], diskFull := 0 } (by decide) (by decide),
   (Handle_returns_first_error Probe.ops [Probe.consoleInfo, Probe.fileInfo] () "hello"
      (Outputs.start 1)).2.1 1 (GoError.plain "disk full") (by decide) (by decide)⟩

/-- C3: `multiHandler.Enabled(ctx, level)` is the logical OR of the children's
`Enabled(ctx, level)`: it returns true if and only if at least one child
returns true, and false if and only if every child returns false. -/
theorem Enabled_iff_any_child (ops : Handler H W Ctx Rec Attr Err) (hs : List H)
    (ctx : Ctx) (level : Level) (w : W) :
    ((NewMultiHandler hs).Enabled ops ctx level w = true ↔
      ∃ c, c ∈ hs ∧ ops.Enabled c ctx level w = true) ∧
    ((NewMultiHandler hs).Enabled ops ctx level w = false ↔
      ∀ c, c ∈ hs → ops.Enabled c ctx level w = false) ∧
    (NewMultiHandler hs).Enabled ops ctx level w =
      hs.any (fun c => ops.Enabled c ctx level w) := by
  have hany : (NewMultiHandler hs).Enabled ops ctx level w =
      hs.any (fun c => ops.Enabled c ctx level w) := by
    show multiHandler.enabledLoop ops ctx level w hs = _
    induction hs with
    | nil => rfl
    | cons c rest ih =>
      simp only [multiHandler.enabledLoop, List.any_cons, ih]
      cases ops.Enabled c ctx level w <;> simp
  refine ⟨?_, ?_, hany⟩
  · rw [hany, List.any_eq_true]
  · rw [hany, List.any_eq_false]
    simp

/-- C4: `WithAttrs(A)` on the fan-out handler at address `p` with children
`h1..hn` returns a handler at a new address `q` whose children are exactly
`h1.WithAttrs(A), ..., hn.WithAttrs(A)`: child `i` of the result is
`hi.WithAttrs(A)` for every `i`, so count and order are kept.  The receiver at
`p` still has its own children, and the world is untouched. -/
theorem WithAttrs_children (ops : Handler H W Ctx Rec Attr Err) (s : State H W) (p : Nat)
    (h : multiHandler H) (attrs : List Attr) (hp : s.objs[p]? = some h) :
    ∃ s1 q, call ops s p (Op.WithAttrs attrs) = some (s1, Ret.handler q) ∧
      s1.objs[q]? = some (h.WithAttrs ops attrs) ∧
      (h.WithAttrs ops attrs).handlers = h.handlers.map (fun c => ops.WithAttrs c attrs) ∧
      (h.WithAttrs ops attrs).handlers.length = h.handlers.length ∧
      (∀ i : Nat, (h.WithAttrs ops attrs).handlers[i]? =
        (h.handlers[i]?).map (fun c => ops.WithAttrs c attrs)) ∧
      q ≠ p ∧ s1.objs[p]? = some h ∧ s1.world = s.world := by
  have hlt : p < s.objs.length := (List.getElem?_eq_some_iff.mp hp).1
  refine ⟨(s.new (h.WithAttrs ops attrs)).1, (s.new (h.WithAttrs ops attrs)).2, ?_,
    (new_fresh s _).1, rfl, ?_, ?_, ?_, ?_, (new_fresh s _).2.2⟩
  · simp [call, hp]
  · simp [multiHandler.WithAttrs]
  · intro i
    simp [multiHandler.WithAttrs]
  · show s.objs.length ≠ p
    omega
  · show (s.objs ++ [h.WithAttrs ops attrs])[p]? = some h
    rw [List.getElem?_append_left hlt]
    exact hp

/-- C4, worked: deriving console, file with `request_id=abc`. -/
theorem WithAttrs_children_witness :
    ∃ s1 q, call Probe.ops
        (State.mk [NewMultiHandler [Probe.consoleInfo, Probe.fileInfo]] (Outputs.start 0)) 0
        (Op.WithAttrs [("request_id", "abc")]) = some (s1, Ret.handler q) ∧
      s1.objs[q]? = some ((NewMultiHandler [Probe.consoleInfo, Probe.fileInfo]).WithAttrs
        Probe.ops [("request_id", "abc")]) ∧
      q ≠ 0 ∧ s1.objs[0]? = some (NewMultiHandler [Probe.consoleInfo, Probe.fileInfo]) := by
  obtain ⟨s1, q, h1, h2, _, _, _, h6, h7, _⟩ := WithAttrs_children Probe.ops
    (State.mk [NewMultiHandler [Probe.consoleInfo, Probe.fileInfo]] (Outputs.start 0)) 0
    (NewMultiHandler [Probe.consoleInfo, Probe.fileInfo]) [("request_id", "abc")] (by decide)
  exact ⟨s1, q, h1, h2, h6, h7⟩

/-- C5: `WithGroup(g)` on the fan-out handler at address `p` with children
`h1..hn` returns a handler at a new address `q` whose children are exactly
`h1.WithGroup(g), ..., hn.WithGroup(g)`: child `i` of the result is
`hi.WithGroup(g)` for every `i`, so count and order are kept.  The receiver at
`p` still has its own children, and the world is untouched. -/
theorem WithGroup_children (ops : Handler H W Ctx Rec Attr Err) (s : State H W) (p : Nat)
    (h : multiHandler H) (name : String) (hp : s.objs[p]? = some h) :
    ∃ s1 q, call ops s p (Op.WithGroup name : Op Ctx Rec Attr) = some (s1, Ret.handler q) ∧
      s1.objs[q]? = some (h.WithGroup ops name) ∧
      (h.WithGroup ops name).handlers = h.handlers.map (fun c => ops.WithGroup c name) ∧
      (h.WithGroup ops name).handlers.length = h.handlers.length ∧
      (∀ i : Nat, (h.WithGroup ops name).handlers[i]? =
        (h.handlers[i]?).map (fun c => ops.WithGroup c name)) ∧
      q ≠ p ∧ s1.objs[p]? = some h ∧ s1.world = s.world := by
  have hlt : p < s.objs.length := (List.getElem?_eq_some_iff.mp hp).1
  refine ⟨(s.new (h.WithGroup ops name)).1, (s.new (h.WithGroup ops name)).2, ?_,
    (new_fresh s _).1, rfl, ?_, ?_, ?_, ?_, (new_fresh s _).2.2⟩
  · simp [call, hp]
  · simp [multiHandler.WithGroup]
  · intro i
    simp [multiHandler.WithGroup]
  · show s.objs.length ≠ p
    omega
  · show (s.objs ++ [h.WithGroup ops name])[p]? = some h
    rw [List.getElem?_append_left hlt]
    exact hp

/-- C5, worked: deriving console, file with the group `http`. -/
theorem WithGroup_children_witness :
    ∃ s1 q, call Probe.ops
        (State.mk [NewMultiHandler [Probe.consoleInfo, Probe.fileInfo]] (Outputs.start 0)) 0
        (Op.WithGroup "http") = some (s1, Ret.handler q) ∧
      s1.objs[q]? = some (NewMultiHandler
        [{ Probe.consoleInfo with groups := ["http"] }, { Probe.fileInfo with groups := ["http"] }]) ∧
      q ≠ 0 ∧ s1.objs[0]? = some (NewMultiHandler [Probe.consoleInfo, Probe.fileInfo]) := by
  obtain ⟨s1, q, h1, h2, _, _, _, h6, h7, _⟩ := WithGroup_children Probe.ops
    (State.mk [NewMultiHandler [Probe.consoleInfo, Probe.fileInfo]] (Outputs.start 0)) 0
    (NewMultiHandler [Probe.consoleInfo, Probe.fileInfo]) "http" (by decide)
  exact ⟨s1, q, h1, h2, h6, h7⟩

/-- C6, as stated, fails: with children console, file and a full disk the file
child (the first failing child) returns the plain error "disk full", and
`Handle` returns that very value, which is not a HandlerError wrapping it. -/
theorem Handle_error_kind_counterexample :
    childError Probe.ops () "hello" [Probe.consoleInfo, Probe.fileInfo] (Outputs.start 1) 0
        = none ∧
    childError Probe.ops () "hello" [Probe.consoleInfo, Probe.fileInfo] (Outputs.start 1) 1
        = some (GoError.plain "disk full") ∧
    ((NewMultiHandler [Probe.consoleInfo, Probe.fileInfo]).Handle Probe.ops () "hello"
        (Outputs.start 1)).1 = some (GoError.plain "disk full") ∧
    isHandlerErrorOf (GoError.plain "disk full") (GoError.plain "disk full") = false := by
  decide

/-- C6, amended: when a child fails, the error `multiHandler.Handle` returns is
the very error value the first failing child returned, passed on unchanged; it
is never a HandlerError that wraps that error. -/
theorem Handle_error_is_child_error (ops : Handler H W Ctx Rec Attr GoError) (hs : List H)
    (ctx : Ctx) (r : Rec) (w : W) (k : Nat) (e : GoError)
    (hk : childError ops ctx r hs w k = some e)
    (hlt : ∀ i, i < k → childError ops ctx r hs w i = none) :
    ((NewMultiHandler hs).Handle ops ctx r w).1 = some e ∧
    ∀ e1, ((NewMultiHandler hs).Handle ops ctx r w).1 = some e1 →
      e1 = e ∧ isHandlerErrorOf e1 e = false := by
  have hk2 : childFails ops ctx r hs w k = true := by simp [childFails, hk]
  have hlt2 : ∀ i, i < k → childFails ops ctx r hs w i = false := by
    intro i hi
    rw [childFails_false_iff]
    exact hlt i hi
  have hres : ((NewMultiHandler hs).Handle ops ctx r w).1 = some e := by
    show (multiHandler.handleLoop ops ctx r hs w).1 = some e
    rw [handleLoop_first_failure ops ctx r hs k w hk2 hlt2]
    exact hk
  refine ⟨hres, ?_⟩
  intro e1 h1
  rw [hres] at h1
  have heq : e1 = e := (Option.some.inj h1).symm
  subst heq
  exact ⟨rfl, by simpa [isHandlerErrorOf] using GoError.ne_wrapping_self "HandlerError" e1⟩

/-- C6 amended, worked: the file child's "disk full" comes back as it is. -/
theorem Handle_error_is_child_error_witness :
    ((NewMultiHandler [Probe.consoleInfo, Probe.fileInfo]).Handle Probe.ops () "hello"
        (Outputs.start 1)).1 = some (GoError.plain "disk full") :=
  (Handle_error_is_child_error Probe.ops [Probe.consoleInfo, Probe.fileInfo] () "hello"
    (Outputs.start 1) 1 (GoError.plain "disk full") (by decide) (by decide)).1

/-- C7: the children of a fan-out handler made by `NewMultiHandler` never
change.  After any sequence of `Handle`, `Enabled`, `WithAttrs` and `WithGroup`
calls on any receivers the object still has exactly the children it was
constructed with, in the same order; every single call leaves every existing
object as it was, and a handler returned by `WithAttrs` or `WithGroup` lives at
an address that held no object before, different from the receiver. -/
theorem children_never_change (ops : Handler H W Ctx Rec Attr Err) (s : State H W)
    (handlers : List H) :
    (s.new (NewMultiHandler handlers)).1.objs[(s.new (NewMultiHandler handlers)).2]? =
      some (NewMultiHandler handlers) ∧
    (NewMultiHandler handlers).handlers = handlers ∧
    (∀ (calls : List (Nat × Op Ctx Rec Attr)) (s2 : State H W),
      run ops calls (s.new (NewMultiHandler handlers)).1 = some s2 →
      (s2.objs[(s.new (NewMultiHandler handlers)).2]?).map multiHandler.handlers =
        some handlers) ∧
    (∀ (s1 s2 : State H W) (p : Nat) (op : Op Ctx Rec Attr) (ret : Ret Err),
      call ops s1 p op = some (s2, ret) →
      (∀ (q : Nat) (h : multiHandler H), s1.objs[q]? = some h → s2.objs[q]? = some h) ∧
      (∀ q : Nat, ret = Ret.handler q → s1.objs[q]? = none ∧ q ≠ p ∧ s2.objs[q]? ≠ none)) := by
  refine ⟨(new_fresh s _).1, rfl, ?_, ?_⟩
  · intro calls s2 hr
    rw [run_keeps ops calls _ s2 hr _ _ (new_fresh s (NewMultiHandler handlers)).1]
    rfl
  · intro s1 s2 p op ret hc
    refine ⟨call_keeps ops s1 s2 p op ret hc, ?_⟩
    intro q hq
    subst hq
    cases op with
    | Handle ctx r =>
      cases hp : s1.objs[p]? with
      | none => simp [call, hp] at hc
      | some h => simp [call, hp] at hc
    | Enabled ctx level =>
      cases hp : s1.objs[p]? with
      | none => simp [call, hp] at hc
      | some h => simp [call, hp] at hc
    | WithAttrs attrs =>
      cases hp : s1.objs[p]? with
      | none => simp [call, hp] at hc
      | some h =>
        have hlt : p < s1.objs.length := (List.getElem?_eq_some_iff.mp hp).1
        simp only [call, hp, Option.some.injEq, Prod.mk.injEq, Ret.handler.injEq] at hc
        obtain ⟨hs2, hq⟩ := hc
        subst hq
        subst hs2
        refine ⟨(new_fresh s1 _).2.1, ?_, ?_⟩
        · show s1.objs.length ≠ p
          omega
        · rw [(new_fresh s1 _).1]
          simp
    | WithGroup name =>
      cases hp : s1.objs[p]? with
      | none => simp [call, hp] at hc
      | some h =>
        have hlt : p < s1.objs.length := (List.getElem?_eq_some_iff.mp hp).1
        simp only [call, hp, Option.some.injEq, Prod.mk.injEq, Ret.handler.injEq] at hc
        obtain ⟨hs2, hq⟩ := hc
        subst hq
        subst hs2
        refine ⟨(new_fresh s1 _).2.1, ?_, ?_⟩
        · show s1.objs.length ≠ p
          omega
        · rw [(new_fresh s1 _).1]
          simp

/-- C7, worked: after a failed `Handle`, a `WithAttrs`, a `WithGroup` on the
derived handler and an `Enabled`, the first object still has the children
console, file. -/
theorem children_never_change_witness :
    ∃ s2, run Probe.ops
        [(0, Op.Handle () "hello"), (0, Op.WithAttrs [("request_id", "abc")]),
          (1, Op.WithGroup "http"), (0, Op.Enabled () LevelInfo)]
        ((State.mk [] (Outputs.start 1)).new
          (NewMultiHandler [Probe.consoleInfo, Probe.fileInfo])).1 = some s2 ∧
      (s2.objs[0]?).map multiHandler.handlers = some [Probe.consoleInfo, Probe.fileInfo] ∧
      s2.objs.length = 3 :=
  ⟨_, rfl,
    (children_never_change Probe.ops (State.mk [] (Outputs.start 1))
      [Probe.consoleInfo, Probe.fileInfo]).2.2.1
      [(0, Op.Handle () "hello"), (0, Op.WithAttrs [("request_id", "abc")]),
        (1, Op.WithGroup "http"), (0, Op.Enabled () LevelInfo)] _ rfl, by decide⟩

/-- C8: a failed `Handle` leaves no failure state in the fan-out handler.  When
some child fails on the first call and every child succeeds in the world the
first call left behind, then on the same handler the first call returns an
error, the second call returns `nil` and calls every child once, from the first
child on; at the receiver's address the object is the same before, between and
after the two calls. -/
theorem Handle_again_after_failure (ops : Handler H W Ctx Rec Attr Err) (hs : List H)
    (ctx : Ctx) (r1 r2 : Rec) (w : W) (log : List (Call H Ctx Rec)) (k : Nat)
    (hk : childFails ops ctx r1 hs w k = true)
    (hok : ∀ i, i < hs.length →
      childFails ops ctx r2 hs ((NewMultiHandler hs).Handle ops ctx r1 w).2 i = false) :
    ((NewMultiHandler hs).Handle (traced ops) ctx r1 (w, log)).1 ≠ none ∧
    ((NewMultiHandler hs).Handle (traced ops) ctx r2
      ((NewMultiHandler hs).Handle (traced ops) ctx r1 (w, log)).2).1 = none ∧
    ((NewMultiHandler hs).Handle (traced ops) ctx r2
      ((NewMultiHandler hs).Handle (traced ops) ctx r1 (w, log)).2).2.2 =
        ((NewMultiHandler hs).Handle (traced ops) ctx r1 (w, log)).2.2 ++
          hs.map (fun c => Call.mk c ctx r2) ∧
    (∀ (s : State H W) (p : Nat), s.objs[p]? = some (NewMultiHandler hs) → s.world = w →
      ∃ s1 s2 e, call ops s p (Op.Handle ctx r1) = some (s1, Ret.error (some e)) ∧
        s1.objs = s.objs ∧
        call ops s1 p (Op.Handle ctx r2 : Op Ctx Rec Attr) = some (s2, Ret.error none) ∧
        s2.objs = s.objs) := by
  have hok2 : ∀ i, i < hs.length →
      childFails ops ctx r2 hs (multiHandler.handleLoop ops ctx r1 hs w).2 i = false := hok
  have hfirst : (multiHandler.handleLoop ops ctx r1 hs w).1 ≠ none := by
    intro hnone
    have hall := (handleLoop_eq_none_iff ops ctx r1 hs w).mp hnone k
      (childFails_lt ops ctx r1 hs w k hk)
    simp [childFails, hall] at hk
  have herase := handleLoop_traced_erase ops ctx r1 hs w log
  have hsecond : multiHandler.handleLoop (traced ops) ctx r2 hs
      (multiHandler.handleLoop (traced ops) ctx r1 hs (w, log)).2 =
      (none, (worldBefore ops ctx r2 hs (multiHandler.handleLoop ops ctx r1 hs w).2 hs.length,
        (multiHandler.handleLoop (traced ops) ctx r1 hs (w, log)).2.2 ++
          hs.map (fun c => Call.mk c ctx r2))) := by
    have hsplit : (multiHandler.handleLoop (traced ops) ctx r1 hs (w, log)).2 =
        ((multiHandler.handleLoop ops ctx r1 hs w).2,
          (multiHandler.handleLoop (traced ops) ctx r1 hs (w, log)).2.2) :=
      Prod.ext herase.2 rfl
    rw [hsplit]
    exact handleLoop_traced_ok ops ctx r2 hs _ _ hok2
  refine ⟨?_, ?_, ?_, ?_⟩
  · show (multiHandler.handleLoop (traced ops) ctx r1 hs (w, log)).1 ≠ none
    rw [herase.1]
    exact hfirst
  · show (multiHandler.handleLoop (traced ops) ctx r2 hs
      (multiHandler.handleLoop (traced ops) ctx r1 hs (w, log)).2).1 = none
    rw [hsecond]
  · show (multiHandler.handleLoop (traced ops) ctx r2 hs
      (multiHandler.handleLoop (traced ops) ctx r1 hs (w, log)).2).2.2 = _
    rw [hsecond]
    rfl
  · intro s p hp hw
    subst hw
    obtain ⟨e, he⟩ := Option.ne_none_iff_exists.mp hfirst
    have hsec : (multiHandler.handleLoop ops ctx r2 hs
        (multiHandler.handleLoop ops ctx r1 hs s.world).2).1 = none := by
      have h2 := handleLoop_traced_erase ops ctx r2 hs
        (multiHandler.handleLoop ops ctx r1 hs s.world).2 []
      rw [← h2.1, handleLoop_traced_ok ops ctx r2 hs _ _ hok2]
    have he1 : ((NewMultiHandler hs).Handle ops ctx r1 s.world).1 = some e := he.symm
    have he2 : ((NewMultiHandler hs).Handle ops ctx r2
        ((NewMultiHandler hs).Handle ops ctx r1 s.world).2).1 = none := hsec
    refine ⟨{ s with world := ((NewMultiHandler hs).Handle ops ctx r1 s.world).2 },
      { s with world := ((NewMultiHandler hs).Handle ops ctx r2
          ((NewMultiHandler hs).Handle ops ctx r1 s.world).2).2 }, e, ?_, rfl, ?_, rfl⟩
    · simp only [call, hp, he1]
    · simp only [call, hp, he2]

/-- C8, worked: the disk is full for one write.  The first call fails at the
file child, the second call succeeds and calls console and file again. -/
theorem Handle_again_after_failure_witness :
    ((NewMultiHandler [Probe.consoleInfo, Probe.fileInfo]).Handle (traced Probe.ops) () "one"
      (Outputs.start 1, [])).1 ≠ none ∧
    ((NewMultiHandler [Probe.consoleInfo, Probe.fileInfo]).Handle (traced Probe.ops) () "two"
      ((NewMultiHandler [Probe.consoleInfo, Probe.fileInfo]).Handle (traced Probe.ops) () "one"
        (Outputs.start 1, [])).2).1 = none ∧
    ((NewMultiHandler [Probe.consoleInfo, Probe.fileInfo]).Handle (traced Probe.ops) () "two"
      ((NewMultiHandler [Probe.consoleInfo, Probe.fileInfo]).Handle (traced Probe.ops) () "one"
        (Outputs.start 1, [])).2).2.2 =
      [Call.mk Probe.consoleInfo () "one", Call.mk Probe.fileInfo () "one",
        Call.mk Probe.consoleInfo () "two", Call.mk Probe.fileInfo () "two"] := by
  have h := Handle_again_after_failure Probe.ops [Probe.consoleInfo, Probe.fileInfo] ()
    "one" "two" (Outputs.start 1) [] 1 (by decide) (by decide)
  refine ⟨h.1, h.2.1, ?_⟩
  rw [h.2.2.1]
  decide

/-- C9: `Handle(R)` on the result of `WithAttrs(A)` delivers `R` exactly once
to each child's `A`-enriched handler, in order, when none of them fails: the
calls made are those on `h1.WithAttrs(A), ..., hn.WithAttrs(A)`, one each, so
`A` is applied to every child once and not again. -/
theorem WithAttrs_then_Handle (ops : Handler H W Ctx Rec Attr Err) (hs : List H)
    (attrs : List Attr) (ctx : Ctx) (r : Rec) (w : W) (log : List (Call H Ctx Rec))
    (hok : ∀ i, i < hs.length →
      childFails ops ctx r (hs.map (fun c => ops.WithAttrs c attrs)) w i = false) :
    (((NewMultiHandler hs).WithAttrs (traced ops) attrs).Handle (traced ops) ctx r
      (w, log)).1 = none ∧
    (((NewMultiHandler hs).WithAttrs (traced ops) attrs).Handle (traced ops) ctx r
      (w, log)).2.2 = log ++ hs.map (fun c => Call.mk (ops.WithAttrs c attrs) ctx r) ∧
    ((((NewMultiHandler hs).WithAttrs (traced ops) attrs).Handle (traced ops) ctx r
      (w, log)).2.2.length = log.length + hs.length) := by
  have hrun : multiHandler.handleLoop (traced ops) ctx r
      (hs.map (fun c => ops.WithAttrs c attrs)) (w, log) = _ :=
    handleLoop_traced_ok ops ctx r (hs.map (fun c => ops.WithAttrs c attrs)) w log
      (by simpa using hok)
  have hshape : ((NewMultiHandler hs).WithAttrs (traced ops) attrs).Handle (traced ops) ctx r
      (w, log) = multiHandler.handleLoop (traced ops) ctx r
        (hs.map (fun c => ops.WithAttrs c attrs)) (w, log) := rfl
  rw [hshape, hrun]
  simp [Function.comp_def]

/-- C9, worked: with `A = request_id=abc` both children are called once, each
carrying `request_id=abc` exactly once, and each writes one line with it. -/
theorem WithAttrs_then_Handle_witness :
    (((NewMultiHandler [Probe.consoleInfo, Probe.fileInfo]).WithAttrs (traced Probe.ops)
        [("request_id", "abc")]).Handle (traced Probe.ops) () "hello"
        (Outputs.start 0, [])).2.2 =
      [Call.mk { Probe.consoleInfo with attrs := [("request_id", "abc")] } () "hello",
        Call.mk { Probe.fileInfo with attrs := [("request_id", "abc")] } () "hello"] ∧
    (((NewMultiHandler [Probe.consoleInfo, Probe.fileInfo]).WithAttrs (traced Probe.ops)
        [("request_id", "abc")]).Handle (traced Probe.ops) () "hello"
        (Outputs.start 0, [])).2.1 =
      { console := [Line.mk "hello" [] [("request_id", "abc")]],
        file := [Line.mk "hello" [] [("request_id", "abc")]], diskFull := 0 } :=
  ⟨(WithAttrs_then_Handle Probe.ops [Probe.consoleInfo, Probe.fileInfo]
      [("request_id", "abc")] () "hello" (Outputs.start 0) [] (by decide)).2.1,
    by decide⟩

/-- C10: the fan-out handler that `InitMultiLogger` builds has the children
console (text, standard output, INFO) and file (JSON, rotator, INFO), in that
order.  Its `Enabled` returns true exactly for the levels at or above INFO and
false exactly for the levels below INFO, DEBUG among them; a record below INFO
is dropped by the logger without any child's `Handle` being called. -/
theorem InitMultiLogger_Enabled (write : slogHandler Attr → Ctx → Rec → W → Option Err × W)
    (ctx : Ctx) (level : Level) (w : W) :
    (InitMultiLogger : Logger (multiHandler (slogHandler Attr))).handler =
      NewMultiHandler
        [slogHandler.NewTextHandler Writer.Stdout { Level := LevelInfo },
          slogHandler.NewJSONHandler (Writer.Rotator InitMultiLogger.rotator)
            { Level := LevelInfo }] ∧
    (InitMultiLogger.handler.Enabled (slogHandler.ops write) ctx level w = true ↔
      LevelInfo ≤ level) ∧
    (InitMultiLogger.handler.Enabled (slogHandler.ops write) ctx level w = false ↔
      level < LevelInfo) ∧
    InitMultiLogger.handler.Enabled (slogHandler.ops write) ctx LevelDebug w = false ∧
    (level < LevelInfo → ∀ (r : Rec) (log : List (Call (slogHandler Attr) Ctx Rec)),
      Logger.log (multiHandler.asHandler (traced (slogHandler.ops write))) InitMultiLogger
        ctx level r (w, log) = (w, log)) := by
  have hen : ∀ (l : Level) (v : W),
      (InitMultiLogger : Logger (multiHandler (slogHandler Attr))).handler.Enabled
        (slogHandler.ops write) ctx l v = decide (LevelInfo ≤ l) := by
    intro l v
    simp [InitMultiLogger, NewMultiHandler, multiHandler.Enabled, multiHandler.enabledLoop,
      slogHandler.ops, slogHandler.minLevel]
  refine ⟨rfl, ?_, ?_, ?_, ?_⟩
  · rw [hen]
    simp
  · rw [hen]
    simp
  · rw [hen]
    decide
  · intro hlt r log
    have hoff : (multiHandler.asHandler (traced (slogHandler.ops write))).Enabled
        (InitMultiLogger : Logger (multiHandler (slogHandler Attr))).handler ctx level (w, log)
        = false := by
      show (InitMultiLogger : Logger (multiHandler (slogHandler Attr))).handler.Enabled
        (slogHandler.ops write) ctx level w = false
      rw [hen]
      simpa using hlt
    simp [Logger.log, hoff]

/-- C10, worked: a DEBUG record is dropped, the outputs and the call log stay
empty. -/
theorem InitMultiLogger_Enabled_witness :
    Logger.log (multiHandler.asHandler (traced (slogHandler.ops
        (fun (_ : slogHandler (String × String)) (_ : Unit) (r : String) (w : List String) =>
          ((none : Option GoError), w ++ [r])))))
      InitMultiLogger () LevelDebug "hello" ([], []) = ([], []) :=
  (InitMultiLogger_Enabled
    (fun (_ : slogHandler (String × String)) (_ : Unit) (r : String) (w : List String) =>
      ((none : Option GoError), w ++ [r]))
    () LevelDebug []).2.2.2.2 (by decide) "hello" []

/-- C11, as stated, fails: with children file (DEBUG), console (INFO) and a
DEBUG record, the fan-out handler is enabled because the file child is, yet on
a full disk the file child's `Handle` fails and `Handle` returns at once: the
console child, whose own `Enabled` is false, is not offered the record. -/
theorem Handle_offers_to_all_counterexample :
    (NewMultiHandler [Probe.fileDebug, Probe.consoleInfo]).Enabled Probe.ops () LevelDebug
        (Outputs.start 1) = true ∧
    Probe.ops.Enabled Probe.fileDebug () LevelDebug (Outputs.start 1) = true ∧
    Probe.ops.Enabled Probe.consoleInfo () LevelDebug (Outputs.start 1) = false ∧
    ((NewMultiHandler [Probe.fileDebug, Probe.consoleInfo]).Handle (traced Probe.ops) ()
        "hello" (Outputs.start 1, [])).2.2 = [Call.mk Probe.fileDebug () "hello"] ∧
    Call.mk Probe.consoleInfo () "hello" ∉
      ((NewMultiHandler [Probe.fileDebug, Probe.consoleInfo]).Handle (traced Probe.ops) ()
        "hello" (Outputs.start 1, [])).2.2 := by
  decide

/-- C11, amended: `Handle` does not filter by the children's own enablement.
Its run is the same whatever the children's `Enabled` methods answer, and it
offers the record to every child up to and including the first child whose
`Handle` fails, to all children when none fails: child `i` receives the `i`-th
call, whether or not its own `Enabled` returns true for the record's level. -/
theorem Handle_ignores_Enabled (ops : Handler H W Ctx Rec Attr Err) (hs : List H)
    (ctx : Ctx) (r : Rec) (w : W) (log : List (Call H Ctx Rec)) :
    (∀ en : H → Ctx → Level → W → Bool,
      (NewMultiHandler hs).Handle { ops with Enabled := en } ctx r w =
        (NewMultiHandler hs).Handle ops ctx r w) ∧
    (∀ k, childFails ops ctx r hs w k = true →
      (∀ i, i < k → childFails ops ctx r hs w i = false) →
      ∀ (i : Nat) (c : H), i ≤ k → hs[i]? = some c →
        ((NewMultiHandler hs).Handle (traced ops) ctx r (w, log)).2.2[log.length + i]? =
          some (Call.mk c ctx r)) ∧
    ((∀ i, i < hs.length → childFails ops ctx r hs w i = false) →
      ∀ (i : Nat) (c : H), hs[i]? = some c →
        ((NewMultiHandler hs).Handle (traced ops) ctx r (w, log)).2.2[log.length + i]? =
          some (Call.mk c ctx r)) := by
  refine ⟨?_, ?_, ?_⟩
  · intro en
    exact handleLoop_congr ops ctx r { ops with Enabled := en } rfl hs w
  · intro k hk hlt i c hik hc
    show (multiHandler.handleLoop (traced ops) ctx r hs (w, log)).2.2[log.length + i]? = _
    rw [handleLoop_traced_fail ops ctx r hs k w log hk hlt]
    have hi : i < k + 1 := Nat.lt_succ_of_le hik
    simp [List.getElem?_append_right, List.getElem?_take, hi, hc]
  · intro hok i c hc
    show (multiHandler.handleLoop (traced ops) ctx r hs (w, log)).2.2[log.length + i]? = _
    rw [handleLoop_traced_ok ops ctx r hs w log hok]
    simp [List.getElem?_append_right, hc]

/-- C11 amended, worked: with children file (DEBUG), console (INFO), a DEBUG
record and a working disk, the console child is not enabled for the record and
still receives the second call. -/
theorem Handle_ignores_Enabled_witness :
    Probe.ops.Enabled Probe.consoleInfo () LevelDebug (Outputs.start 0) = false ∧
    ((NewMultiHandler [Probe.fileDebug, Probe.consoleInfo]).Handle (traced Probe.ops) ()
        "hello" (Outputs.start 0, [])).2.2[1]? = some (Call.mk Probe.consoleInfo () "hello") :=
  ⟨by decide,
    (Handle_ignores_Enabled Probe.ops [Probe.fileDebug, Probe.consoleInfo] () "hello"
      (Outputs.start 0) []).2.2 (by decide) 1 Probe.consoleInfo (by decide)⟩

/-- C12: the rotator that `InitMultiLogger` configures, and hands to the file
child, has `MaxSize` 1 (megabyte), not the 10 of the comment next to it. -/
theorem InitMultiLogger_rotator_MaxSize :
    InitMultiLogger.rotator.MaxSize = 1 ∧ InitMultiLogger.rotator.MaxSize ≠ 10 ∧
    (InitMultiLogger : Logger (multiHandler (slogHandler (String × String)))).handler.handlers[1]?
      = some (slogHandler.NewJSONHandler (Writer.Rotator InitMultiLogger.rotator)
          { Level := LevelInfo }) := by
  decide

/-- C13: nesting is transparent.  The fan-out handler over the children
`NewMultiHandler(xs...), ys...` and the flat `NewMultiHandler(xs ++ ys ...)`
make the same `Handle` calls on the same plain children in the same order and
return the same error in the same world; `Enabled` returns the same boolean;
`WithAttrs` and `WithGroup` of the nested handler are the nested handler over
the derived `xs` and `ys`, whose plain children are those of `WithAttrs` and
`WithGroup` of the flat one. -/
theorem nesting_is_transparent (ops : Handler H W Ctx Rec Attr Err) (xs ys : List H)
    (ctx : Ctx) (r : Rec) (level : Level) (w : W) (log : List (Call H Ctx Rec))
    (attrs : List Attr) (name : String) :
    (NewMultiHandler (Sum.inl (NewMultiHandler xs) :: ys.map Sum.inr)).Handle
        (nestedOps (traced ops)) ctx r (w, log) =
      (NewMultiHandler (xs ++ ys)).Handle (traced ops) ctx r (w, log) ∧
    (NewMultiHandler (Sum.inl (NewMultiHandler xs) :: ys.map Sum.inr)).Handle
        (nestedOps ops) ctx r w =
      (NewMultiHandler (xs ++ ys)).Handle ops ctx r w ∧
    (NewMultiHandler (Sum.inl (NewMultiHandler xs) :: ys.map Sum.inr)).Enabled
        (nestedOps ops) ctx level w =
      (NewMultiHandler (xs ++ ys)).Enabled ops ctx level w ∧
    ((NewMultiHandler (Sum.inl (NewMultiHandler xs) :: ys.map Sum.inr)).WithAttrs
        (nestedOps ops) attrs =
      NewMultiHandler (Sum.inl (NewMultiHandler (xs.map (fun c => ops.WithAttrs c attrs))) ::
        (ys.map (fun c => ops.WithAttrs c attrs)).map Sum.inr) ∧
     (NewMultiHandler (xs ++ ys)).WithAttrs ops attrs =
      NewMultiHandler (xs.map (fun c => ops.WithAttrs c attrs) ++
        ys.map (fun c => ops.WithAttrs c attrs)) ∧
     flatten ((NewMultiHandler (Sum.inl (NewMultiHandler xs) :: ys.map Sum.inr)).WithAttrs
        (nestedOps ops) attrs).handlers =
      ((NewMultiHandler (xs ++ ys)).WithAttrs ops attrs).handlers) ∧
    ((NewMultiHandler (Sum.inl (NewMultiHandler xs) :: ys.map Sum.inr)).WithGroup
        (nestedOps ops) name =
      NewMultiHandler (Sum.inl (NewMultiHandler (xs.map (fun c => ops.WithGroup c name))) ::
        (ys.map (fun c => ops.WithGroup c name)).map Sum.inr) ∧
     (NewMultiHandler (xs ++ ys)).WithGroup ops name =
      NewMultiHandler (xs.map (fun c => ops.WithGroup c name) ++
        ys.map (fun c => ops.WithGroup c name)) ∧
     flatten ((NewMultiHandler (Sum.inl (NewMultiHandler xs) :: ys.map Sum.inr)).WithGroup
        (nestedOps ops) name).handlers =
      ((NewMultiHandler (xs ++ ys)).WithGroup ops name).handlers) := by
  have hflat : flatten (Sum.inl (NewMultiHandler xs) :: ys.map Sum.inr) = xs ++ ys := by
    show xs ++ flatten (ys.map Sum.inr) = xs ++ ys
    rw [flatten_map_inr ys]
  refine ⟨?_, ?_, ?_, ⟨?_, ?_, ?_⟩, ⟨?_, ?_, ?_⟩⟩
  · show multiHandler.handleLoop (nestedOps (traced ops)) ctx r
        (Sum.inl (NewMultiHandler xs) :: ys.map Sum.inr) (w, log) =
      multiHandler.handleLoop (traced ops) ctx r (xs ++ ys) (w, log)
    rw [handleLoop_flatten (traced ops) ctx r, hflat]
  · show multiHandler.handleLoop (nestedOps ops) ctx r
        (Sum.inl (NewMultiHandler xs) :: ys.map Sum.inr) w =
      multiHandler.handleLoop ops ctx r (xs ++ ys) w
    rw [handleLoop_flatten ops ctx r, hflat]
  · show multiHandler.enabledLoop (nestedOps ops) ctx level w
        (Sum.inl (NewMultiHandler xs) :: ys.map Sum.inr) =
      multiHandler.enabledLoop ops ctx level w (xs ++ ys)
    rw [enabledLoop_flatten ops ctx level w, hflat]
  · simp [multiHandler.WithAttrs, NewMultiHandler, nestedOps, Handler.either,
      multiHandler.asHandler, Function.comp_def]
  · simp [multiHandler.WithAttrs, NewMultiHandler]
  · show flatten ((Sum.inl (NewMultiHandler xs) :: ys.map Sum.inr).map
        (fun c => (nestedOps ops).WithAttrs c attrs)) = (xs ++ ys).map _
    rw [flatten_map_WithAttrs ops attrs, hflat]
  · simp [multiHandler.WithGroup, NewMultiHandler, nestedOps, Handler.either,
      multiHandler.asHandler, Function.comp_def]
  · simp [multiHandler.WithGroup, NewMultiHandler]
  · show flatten ((Sum.inl (NewMultiHandler xs) :: ys.map Sum.inr).map
        (fun c => (nestedOps ops).WithGroup c name)) = (xs ++ ys).map _
    rw [flatten_map_WithGroup ops name, hflat]

/-- C14: a fan-out handler with no children is disabled for every level, its
`Handle` returns `nil` for every record, calls no child and leaves the world as
it is, and its `WithAttrs` and `WithGroup` return a fan-out handler that again
has no children. -/
theorem empty_fanout (ops : Handler H W Ctx Rec Attr Err) (ctx : Ctx) (r : Rec)
    (level : Level) (w : W) (log : List (Call H Ctx Rec)) (attrs : List Attr) (name : String) :
    (NewMultiHandler ([] : List H)).Enabled ops ctx level w = false ∧
    (NewMultiHandler ([] : List H)).Handle ops ctx r w = (none, w) ∧
    (NewMultiHandler ([] : List H)).Handle (traced ops) ctx r (w, log) = (none, (w, log)) ∧
    (NewMultiHandler ([] : List H)).WithAttrs ops attrs = NewMultiHandler [] ∧
    ((NewMultiHandler ([] : List H)).WithAttrs ops attrs).handlers.length = 0 ∧
    (NewMultiHandler ([] : List H)).WithGroup ops name = NewMultiHandler [] ∧
    ((NewMultiHandler ([] : List H)).WithGroup ops name).handlers.length = 0 :=
  ⟨rfl, rfl, rfl, rfl, rfl, rfl, rfl⟩

/-- C15: for a non-empty fan-out whose children are level-threshold handlers
(child `x` is enabled exactly for the levels at or above `thr x`),
`Enabled(level)` holds if and only if `level` is at or above the lowest child
threshold; so `Enabled` is monotone in the level.  The lowest threshold is
below every child's threshold and is the threshold of one of the children. -/
theorem Enabled_iff_lowest_threshold (ops : Handler H W Ctx Rec Attr Err) (thr : H → Level)
    (c : H) (rest : List H) (ctx : Ctx) (w : W)
    (hthr : ∀ x, x ∈ c :: rest → ∀ level : Level,
      ops.Enabled x ctx level w = decide (thr x ≤ level)) :
    (∀ level : Level, (NewMultiHandler (c :: rest)).Enabled ops ctx level w = true ↔
      lowestThreshold thr c rest ≤ level) ∧
    (∀ l1 l2 : Level, l1 ≤ l2 →
      (NewMultiHandler (c :: rest)).Enabled ops ctx l1 w = true →
      (NewMultiHandler (c :: rest)).Enabled ops ctx l2 w = true) ∧
    (∀ x, x ∈ c :: rest → lowestThreshold thr c rest ≤ thr x) ∧
    (∃ x, x ∈ c :: rest ∧ thr x = lowestThreshold thr c rest) := by
  obtain ⟨hlow, xmin, hxmin, hxeq⟩ := lowestThreshold_spec thr c rest
  have hiff : ∀ level : Level, (NewMultiHandler (c :: rest)).Enabled ops ctx level w = true ↔
      lowestThreshold thr c rest ≤ level := by
    intro level
    show multiHandler.enabledLoop ops ctx level w (c :: rest) = true ↔ _
    rw [enabledLoop_eq_any ops ctx level w (c :: rest), List.any_eq_true]
    constructor
    · rintro ⟨x, hx, hen⟩
      rw [hthr x hx level] at hen
      exact le_trans (hlow x hx) (of_decide_eq_true hen)
    · intro hle
      refine ⟨xmin, hxmin, ?_⟩
      rw [hthr xmin hxmin level, hxeq]
      exact decide_eq_true hle
  refine ⟨hiff, ?_, hlow, ⟨xmin, hxmin, hxeq⟩⟩
  intro l1 l2 hle h1
  exact (hiff l2).mpr (le_trans ((hiff l1).mp h1) hle)

/-- C15, worked: console at INFO and file at DEBUG; the fan-out handler's
threshold is DEBUG, so it is enabled for DEBUG, and enabled for the level below
DEBUG only if DEBUG were at or below that level. -/
theorem Enabled_iff_lowest_threshold_witness :
    lowestThreshold Probe.minLevel Probe.consoleInfo [Probe.fileDebug] = LevelDebug ∧
    (NewMultiHandler [Probe.consoleInfo, Probe.fileDebug]).Enabled Probe.ops () LevelDebug
        (Outputs.start 0) = true ∧
    ((NewMultiHandler [Probe.consoleInfo, Probe.fileDebug]).Enabled Probe.ops () (LevelDebug - 1)
        (Outputs.start 0) = true ↔
      lowestThreshold Probe.minLevel Probe.consoleInfo [Probe.fileDebug] ≤ LevelDebug - 1) :=
  ⟨by decide,
    ((Enabled_iff_lowest_threshold Probe.ops Probe.minLevel Probe.consoleInfo [Probe.fileDebug]
      () (Outputs.start 0) (fun _ _ _ => rfl)).1 LevelDebug).mpr (by decide),
    (Enabled_iff_lowest_threshold Probe.ops Probe.minLevel Probe.consoleInfo [Probe.fileDebug]
      () (Outputs.start 0) (fun _ _ _ => rfl)).1 (LevelDebug - 1)⟩

end mlogger
